import Mathlib

/-!
Verification of the LifeFlow rule-engine core (condition evaluator, action
executor, rule engine) against its natural-language specification.

The embedding follows the TypeScript source:
* `src/modules/rules/conditionEvaluator.ts` — `getNestedValue`,
  `evaluateCondition`, `evaluateConditions`;
* `src/modules/rules/actionExecutor.ts` — `executeNotify`,
  `executeLogMessage`, `executeStartTimer`, `executeTriggerBreak`,
  `executeAction`, `executeActions`;
* `src/modules/rules/ruleEngine.ts` — `RuleEngine.handleEvent`,
  `RuleEngine.evaluateAndExecuteRule`, `RuleEngine.testRule`.

Dynamic JavaScript values are modelled by the inductive `JsonValue`
(numbers as `Int`; the spec's scenarios use only integers and no claim
depends on floating-point behaviour).  The distinguished JS `undefined`
is the constructor `JsonValue.undefined`; functions reachable from the
rule context are the opaque constructor `JsonValue.func`.  External
collaborators (the Notification API and the timer store) are an explicit
oracle `Env`, and observable side effects on collaborators are collected
in an `Effect` trace so that "collaborator never invoked" is a provable
statement.  Console diagnostics carry no program-visible state and are
not traced.  JavaScript strict equality `===` is modelled structurally
by `beqVal` (reference identity of heap objects is not representable in
a value model; every claim under study compares scalars).
-/

namespace LifeFlow

/-- Model of a dynamically-typed JavaScript value as stored in payloads,
rule-condition expected values and action params. -/
inductive JsonValue where
  | null
  | undefined
  | func
  | bool (b : Bool)
  | num (n : Int)
  | str (s : String)
  | arr (xs : List JsonValue)
  | obj (fields : List (String × JsonValue))

mutual

/-- Structural equality on `JsonValue`, modelling JS `===` (scalars compare
by value; arrays/objects are compared structurally, see the header note). -/
def beqVal : JsonValue → JsonValue → Bool
  | .null, .null => true
  | .undefined, .undefined => true
  | .func, .func => true
  | .bool a, .bool b => a == b
  | .num a, .num b => a == b
  | .str a, .str b => a == b
  | .arr xs, .arr ys => beqValList xs ys
  | .obj xs, .obj ys => beqValFields xs ys
  | _, _ => false

/-- Pointwise `beqVal` on lists of values. -/
def beqValList : List JsonValue → List JsonValue → Bool
  | [], [] => true
  | x :: xs, y :: ys => beqVal x y && beqValList xs ys
  | _, _ => false

/-- Pointwise `beqVal` on association lists of object fields. -/
def beqValFields : List (String × JsonValue) → List (String × JsonValue) → Bool
  | [], [] => true
  | (k1, v1) :: xs, (k2, v2) :: ys => k1 == k2 && beqVal v1 v2 && beqValFields xs ys
  | _, _ => false

end

/-- JavaScript truthiness of a value (`!v` in the source tests falsiness). -/
def truthy : JsonValue → Bool
  | .null => false
  | .undefined => false
  | .func => true
  | .bool b => b
  | .num n => n != 0
  | .str s => !s.isEmpty
  | .arr _ => true
  | .obj _ => true

/-- Property lookup `o[k]` on an object: a missing key yields `undefined`. -/
def objLookup (fields : List (String × JsonValue)) (key : String) : JsonValue :=
  match fields.find? (fun p => p.1 == key) with
  | some p => p.2
  | none => .undefined

/-- Index lookup `a[k]` on an array with a string key: a canonical decimal
index in range yields the element, anything else `undefined` (exotic array
properties such as `length` are not modelled; no rule path uses them). -/
def arrIndex (xs : List JsonValue) (key : String) : JsonValue :=
  match key.toNat? with
  | some i => if toString i = key then (xs.get? i).getD .undefined else .undefined
  | none => .undefined

/-- One `RuleCondition` (`field`, `operator`, `value` in `db/types`): a dotted
field path, an operator tag and the expected value. -/
structure RuleCondition where
  field : String
  operator : String
  value : JsonValue

/-- One `RuleActionConfig` (`db/types`): an action-type tag and its params map. -/
structure RuleActionConfig where
  type : String
  params : List (String × JsonValue)

/-- Model of `RuleContext` (`rules/types.ts`): the event payload; the accessor
callbacks (`getActivityById`, …) are opaque functions and contribute only
the `JsonValue.func` leaves of `contextValue` below. -/
structure RuleContext where
  payload : List (String × JsonValue)

/-- The context object built by `RuleEngine.buildContext`, as seen by the
path walker: the payload plus four function-valued accessors. -/
def contextValue (ctx : RuleContext) : JsonValue :=
  .obj [("payload", .obj ctx.payload),
        ("getActivityById", .func),
        ("getHabitById", .func),
        ("getCurrentTime", .func),
        ("getTodayKey", .func)]

/-- The synthetic root `{ payload: context.payload, context }` that
`evaluateCondition` resolves field paths against. -/
def syntheticRoot (ctx : RuleContext) : JsonValue :=
  .obj [("payload", .obj ctx.payload), ("context", contextValue ctx)]

/-- The segment-by-segment walk inside `getNestedValue`: `null`/`undefined`
stop with `undefined`; objects and arrays (JS `typeof === 'object'`) are
indexed; any other value (string, number, boolean, function) stops with
`undefined` while segments remain. -/
def getNestedValueParts : List String → JsonValue → JsonValue
  | [], v => v
  | part :: rest, v =>
    match v with
    | .null => .undefined
    | .undefined => .undefined
    | .obj fields => getNestedValueParts rest (objLookup fields part)
    | .arr xs => getNestedValueParts rest (arrIndex xs part)
    | _ => .undefined

/-- Model of `path.split('.')` on the character list of the path: splitting on a
single-character separator (defined structurally so that it evaluates by
`rfl`; it agrees with JS `split('.')`, e.g. `"" ↦ [""]`, `"a." ↦ ["a",""]`,
`"a..b" ↦ ["a","","b"]`). -/
def splitDot : List Char → List String
  | [] => [""]
  | c :: cs =>
    if c = '.' then "" :: splitDot cs
    else
      match splitDot cs with
      | [] => [String.mk [c]]
      | s :: rest => String.mk (c :: s.toList) :: rest

/-- Source `getNestedValue(obj, path)` from `conditionEvaluator.ts`: split the path
on dots and walk. -/
def getNestedValue (root : JsonValue) (path : String) : JsonValue :=
  getNestedValueParts (splitDot path.toList) root

/-- Substring test on character lists: does `l` start with `t`? -/
def listStartsWith : List Char → List Char → Bool
  | _, [] => true
  | [], _ :: _ => false
  | a :: as, b :: bs => a == b && listStartsWith as bs

/-- Substring test on character lists: does `t` occur contiguously in `l`?
Models JS `String.prototype.includes`. -/
def hasSubstr : List Char → List Char → Bool
  | [], t => t.isEmpty
  | a :: as, t => listStartsWith (a :: as) t || hasSubstr as t

/-- JS `s.includes(t)` for strings. -/
def strIncludes (s t : String) : Bool := hasSubstr s.toList t.toList

/-- Source `evaluateCondition(condition, context)` from `conditionEvaluator.ts`. -/
def evaluateCondition (condition : RuleCondition) (context : RuleContext) : Bool :=
  let actualValue := getNestedValue (syntheticRoot context) condition.field
  let expectedValue := condition.value
  match condition.operator with
  | "eq" => beqVal actualValue expectedValue
  | "neq" => !(beqVal actualValue expectedValue)
  | "gt" =>
    match actualValue, expectedValue with
    | .num a, .num b => decide (a > b)
    | _, _ => false
  | "gte" =>
    match actualValue, expectedValue with
    | .num a, .num b => decide (a ≥ b)
    | _, _ => false
  | "lt" =>
    match actualValue, expectedValue with
    | .num a, .num b => decide (a < b)
    | _, _ => false
  | "lte" =>
    match actualValue, expectedValue with
    | .num a, .num b => decide (a ≤ b)
    | _, _ => false
  | "contains" =>
    match actualValue, expectedValue with
    | .str s, .str t => strIncludes s t
    | .arr xs, _ => xs.any (fun x => beqVal x expectedValue)
    | _, _ => false
  | _ => false

/-- Source `evaluateConditions(conditions, context)` from `conditionEvaluator.ts`:
an empty list always matches, otherwise conjunctive `every`. -/
def evaluateConditions (conditions : List RuleCondition) (context : RuleContext) : Bool :=
  if conditions.length = 0 then true
  else conditions.all (fun c => evaluateCondition c context)

/-- Observable side effects on external collaborators. -/
inductive Effect where
  | notifyShown (title body : JsonValue)
  | permissionRequested
  | timerStart (activityId : JsonValue)

/-- Oracle for the external collaborators consumed by the action executor:
the Notification capability and the timer store.  `startTimer` returns the
generated timer id or the (stringified) exception the collaborator threw;
`notificationCtorError` is `some e` when `new Notification` throws `e`. -/
structure Env where
  notificationSupported : Bool
  notificationPermission : String
  requestPermissionResult : String
  notificationCtorError : Option String
  startTimer : JsonValue → Except String String

/-- Model of `ActionResult` from `rules/types.ts`. -/
structure ActionResult where
  actionType : String
  success : Bool
  error : Option String := none
  data : Option JsonValue := none

/-- Source `executeNotify` from `actionExecutor.ts` (the `||` defaults follow JS
truthiness; the whole body sits in a `try`, so a throwing
`new Notification` becomes a failed result). -/
def executeNotify (params : List (String × JsonValue)) (env : Env)
    (_context : RuleContext) : ActionResult × List Effect :=
  let title := if truthy (objLookup params "title") then objLookup params "title"
               else .str "LifeFlow Bildirimi"
  let body := if truthy (objLookup params "body") then objLookup params "body"
              else .str ""
  if env.notificationSupported then
    if env.notificationPermission = "granted" then
      match env.notificationCtorError with
      | some e => ({ actionType := "NOTIFY", success := false, error := some e }, [])
      | none => ({ actionType := "NOTIFY", success := true }, [.notifyShown title body])
    else if env.notificationPermission ≠ "denied" then
      if env.requestPermissionResult = "granted" then
        match env.notificationCtorError with
        | some e =>
          ({ actionType := "NOTIFY", success := false, error := some e },
           [.permissionRequested])
        | none =>
          ({ actionType := "NOTIFY", success := true },
           [.permissionRequested, .notifyShown title body])
      else
        ({ actionType := "NOTIFY", success := false, error := some "Bildirim izni verilmedi" },
         [.permissionRequested])
    else
      ({ actionType := "NOTIFY", success := false, error := some "Bildirim izni verilmedi" },
       [])
  else
    ({ actionType := "NOTIFY", success := false, error := some "Bildirim izni verilmedi" },
     [])

/-- Source `executeLogMessage` from `actionExecutor.ts`: always succeeds; console
output is untraced. -/
def executeLogMessage (params : List (String × JsonValue)) (_env : Env)
    (_context : RuleContext) : ActionResult × List Effect :=
  let message := objLookup params "message"
  ({ actionType := "LOG_MESSAGE", success := true,
     data := some (.obj [("message", message)]) }, [])

/-- Source `executeStartTimer` from `actionExecutor.ts`: a falsy `activityId` fails
with a validation error before the timer store is touched; otherwise the
collaborator is invoked and its outcome wrapped. -/
def executeStartTimer (params : List (String × JsonValue)) (env : Env)
    (_context : RuleContext) : ActionResult × List Effect :=
  let activityId := objLookup params "activityId"
  if !(truthy activityId) then
    ({ actionType := "START_TIMER", success := false, error := some "activityId gerekli" }, [])
  else
    match env.startTimer activityId with
    | .ok timerId =>
      ({ actionType := "START_TIMER", success := true,
         data := some (.obj [("timerId", .str timerId)]) }, [.timerStart activityId])
    | .error e =>
      ({ actionType := "START_TIMER", success := false, error := some e },
       [.timerStart activityId])

/-- Source `executeTriggerBreak` from `actionExecutor.ts`: always succeeds; the
`||` defaults (5 minutes, not long) follow JS truthiness. -/
def executeTriggerBreak (params : List (String × JsonValue)) (_env : Env)
    (_context : RuleContext) : ActionResult × List Effect :=
  let duration := if truthy (objLookup params "duration") then objLookup params "duration"
                  else .num 300
  let isLongBreak := if truthy (objLookup params "isLongBreak") then objLookup params "isLongBreak"
                     else .bool false
  ({ actionType := "TRIGGER_BREAK", success := true,
     data := some (.obj [("duration", duration), ("isLongBreak", isLongBreak)]) }, [])

/-- Source `executeAction` from `actionExecutor.ts`: dispatch on the action type;
an unknown type yields a failed result with a descriptive message. -/
def executeAction (action : RuleActionConfig) (env : Env)
    (context : RuleContext) : ActionResult × List Effect :=
  match action.type with
  | "NOTIFY" => executeNotify action.params env context
  | "LOG_MESSAGE" => executeLogMessage action.params env context
  | "START_TIMER" => executeStartTimer action.params env context
  | "TRIGGER_BREAK" => executeTriggerBreak action.params env context
  | t => ({ actionType := t, success := false,
            error := some ("Bilinmeyen aksiyon türü: " ++ t) }, [])

/-- Source `executeActions` from `actionExecutor.ts`: run in order, collect
results, stop at the first failure. -/
def executeActions : List RuleActionConfig → Env → RuleContext →
    List ActionResult × List Effect
  | [], _, _ => ([], [])
  | a :: rest, env, ctx =>
    let r := (executeAction a env ctx).1
    let eff := (executeAction a env ctx).2
    if r.success then
      let rs := executeActions rest env ctx
      (r :: rs.1, eff ++ rs.2)
    else
      ([r], eff)

/-- Model of `Rule` from `db/types` (the fields the engine reads). -/
structure Rule where
  id : String
  name : String
  trigger : String
  conditions : List RuleCondition
  actions : List RuleActionConfig
  enabled : Bool := true
  createdAt : Int := 0
  updatedAt : Int := 0

/-- Model of `EvaluatedRule` from `rules/types.ts`. -/
structure EvaluatedRule where
  ruleId : String
  ruleName : String
  trigger : String
  matched : Bool
  actionsExecuted : Bool
  error : Option String := none

/-- Source `RuleEngine.buildContext`: wrap the payload (the accessor callbacks are
the opaque function leaves of `contextValue`). -/
def buildContext (payload : List (String × JsonValue)) : RuleContext :=
  { payload := payload }

/-- Source `RuleEngine.evaluateAndExecuteRule`, happy path (the `try` body; the
embedded evaluator and executor are total, so no exception can arise —
`evaluateAndExecuteRuleGen` below models the defensive `catch`).  Returns
the result record together with the collaborator effect trace. -/
def evaluateAndExecuteRule (rule : Rule) (env : Env)
    (ctx : RuleContext) : EvaluatedRule × List Effect :=
  let base : EvaluatedRule :=
    { ruleId := rule.id, ruleName := rule.name, trigger := rule.trigger,
      matched := false, actionsExecuted := false, error := none }
  let conditionsMatch := evaluateConditions rule.conditions ctx
  let r1 := { base with matched := conditionsMatch }
  if conditionsMatch then
    let acts := executeActions rule.actions env ctx
    let allOk := acts.1.all (fun r => r.success)
    let r2 := { r1 with actionsExecuted := allOk }
    let r3 :=
      if allOk then r2
      else
        match acts.1.find? (fun r => !r.success) with
        | some fa =>
          match fa.error with
          | some e => if e = "" then r2 else { r2 with error := some e }
          | none => r2
        | none => r2
    (r3, acts.2)
  else
    (r1, [])

/-- Engine state (`RuleEngine` class fields the dispatch path reads). -/
structure EngineState where
  isRunning : Bool := false
  rulesCache : List Rule := []
  rolloverHour : Int := 4

/-- Source `RuleEngine.handleEvent`: filter the cache by trigger, build one context
for the event and evaluate-and-execute every matching rule in cache order. -/
def handleEvent (env : Env) (state : EngineState) (eventType : String)
    (payload : List (String × JsonValue)) : List EvaluatedRule :=
  let matchingRules := state.rulesCache.filter (fun rule => rule.trigger == eventType)
  if matchingRules.isEmpty then []
  else
    let context := buildContext payload
    matchingRules.map (fun rule => (evaluateAndExecuteRule rule env context).1)

/-- Source `RuleEngine.testRule`: build a context from a caller-supplied payload and
run the same evaluate-and-execute path. -/
def testRule (rule : Rule) (env : Env)
    (mockPayload : List (String × JsonValue)) : EvaluatedRule × List Effect :=
  evaluateAndExecuteRule rule env (buildContext mockPayload)

/-- Source `RuleEngine.evaluateAndExecuteRule` with its `try`/`catch`, over an
arbitrary possibly-throwing condition evaluator and action executor (a
thrown exception is an `Except.error` carrying the stringified error):
the result record is built step by step exactly as in the source, and the
`catch` turns a throw anywhere in the body into the rule's `error` field. -/
def evaluateAndExecuteRuleGen
    (evalConds : List RuleCondition → RuleContext → Except String Bool)
    (execActs : List RuleActionConfig → RuleContext → Except String (List ActionResult))
    (rule : Rule) (ctx : RuleContext) : EvaluatedRule :=
  let base : EvaluatedRule :=
    { ruleId := rule.id, ruleName := rule.name, trigger := rule.trigger,
      matched := false, actionsExecuted := false, error := none }
  match evalConds rule.conditions ctx with
  | .error e => { base with error := some e }
  | .ok conditionsMatch =>
    let r1 := { base with matched := conditionsMatch }
    if conditionsMatch then
      match execActs rule.actions ctx with
      | .error e => { r1 with error := some e }
      | .ok actionResults =>
        let allOk := actionResults.all (fun r => r.success)
        let r2 := { r1 with actionsExecuted := allOk }
        if allOk then r2
        else
          match actionResults.find? (fun r => !r.success) with
          | some fa =>
            match fa.error with
            | some e => if e = "" then r2 else { r2 with error := some e }
            | none => r2
          | none => r2
    else r1

/-- Source `RuleEngine.handleEvent` over the same arbitrary possibly-throwing
evaluator/executor pair as `evaluateAndExecuteRuleGen`. -/
def handleEventGen
    (evalConds : List RuleCondition → RuleContext → Except String Bool)
    (execActs : List RuleActionConfig → RuleContext → Except String (List ActionResult))
    (state : EngineState) (eventType : String)
    (payload : List (String × JsonValue)) : List EvaluatedRule :=
  let matchingRules := state.rulesCache.filter (fun rule => rule.trigger == eventType)
  if matchingRules.isEmpty then []
  else
    let context := buildContext payload
    matchingRules.map (fun rule => evaluateAndExecuteRuleGen evalConds execActs rule context)

/-! ### Helper lemmas -/

mutual

theorem beqVal_iff : ∀ (a b : JsonValue), beqVal a b = true ↔ a = b
  | .null, b => by cases b <;> simp [beqVal]
  | .undefined, b => by cases b <;> simp [beqVal]
  | .func, b => by cases b <;> simp [beqVal]
  | .bool a, b => by cases b <;> simp [beqVal]
  | .num a, b => by cases b <;> simp [beqVal]
  | .str a, b => by cases b <;> simp [beqVal]
  | .arr xs, b => by
      cases b <;> simp [beqVal]
      exact beqValList_iff xs _
  | .obj xs, b => by
      cases b <;> simp [beqVal]
      exact beqValFields_iff xs _

theorem beqValList_iff : ∀ (xs ys : List JsonValue), beqValList xs ys = true ↔ xs = ys
  | [], ys => by cases ys <;> simp [beqValList]
  | x :: xs, ys => by
      cases ys with
      | nil => simp [beqValList]
      | cons y ys =>
        simp [beqValList, Bool.and_eq_true, beqVal_iff x y, beqValList_iff xs ys]

theorem beqValFields_iff : ∀ (xs ys : List (String × JsonValue)),
    beqValFields xs ys = true ↔ xs = ys
  | [], ys => by cases ys <;> simp [beqValFields]
  | (k1, v1) :: xs, ys => by
      cases ys with
      | nil => simp [beqValFields]
      | cons y ys =>
        cases y with
        | mk k2 v2 =>
          simp [beqValFields, Bool.and_eq_true, beqVal_iff v1 v2, beqValFields_iff xs ys,
            and_assoc]

end

theorem listStartsWith_iff (t l : List Char) :
    listStartsWith l t = true ↔ ∃ post, l = t ++ post := by
  induction t generalizing l with
  | nil => simp [listStartsWith]
  | cons b bs ih =>
    cases l with
    | nil => simp [listStartsWith]
    | cons a as =>
      simp [listStartsWith, Bool.and_eq_true, ih as]

theorem hasSubstr_iff (l t : List Char) :
    hasSubstr l t = true ↔ ∃ pre post, l = pre ++ t ++ post := by
  induction l with
  | nil =>
    simp [hasSubstr, List.isEmpty_iff]
  | cons a as ih =>
    simp [hasSubstr, Bool.or_eq_true, listStartsWith_iff, ih]
    constructor
    · rintro (⟨post, hpost⟩ | ⟨pre, post, hpost⟩)
      · exact ⟨[], post, by simp [hpost]⟩
      · exact ⟨a :: pre, post, by simp [hpost]⟩
    · rintro ⟨pre, post, hpost⟩
      cases pre with
      | nil => exact Or.inl ⟨post, by simpa using hpost⟩
      | cons p ps =>
        right
        refine ⟨ps, post, ?_⟩
        rw [List.cons_append] at hpost
        simp at hpost
        simpa using hpost.2

theorem mem_takeWhile_pred {α : Type} (p : α → Bool) (l : List α) (a : α)
    (h : a ∈ l.takeWhile p) : p a = true := by
  induction l with
  | nil => simp [List.takeWhile] at h
  | cons x xs ih =>
    rw [List.takeWhile_cons] at h
    by_cases hp : p x = true
    · simp [hp] at h
      rcases h with rfl | h
      · exact hp
      · exact ih h
    · simp [hp] at h

theorem head_dropWhile_pred {α : Type} (p : α → Bool) (l : List α) (b : α)
    (h : (l.dropWhile p).head? = some b) : p b = false := by
  induction l with
  | nil => simp [List.dropWhile] at h
  | cons x xs ih =>
    rw [List.dropWhile_cons] at h
    by_cases hp : p x = true
    · simp [hp] at h
      exact ih h
    · simp [hp] at h
      subst h
      exact Bool.not_eq_true _ ▸ (by simpa using hp)

/-! ### Claim theorems -/

/-- C1: for every list of action configs and every context, `executeActions`
runs the actions strictly in list order and stops at the first action whose
result has `success = false`: the returned list is exactly the results of
the all-successful prefix plus the one failing result (and the collaborator
effect trace likewise contains only effects of those actions, so no action
after the first failure is ever invoked); if no action fails, the list has
one successful result per action in order. -/
theorem executeActions_failFast (actions : List RuleActionConfig) (env : Env)
    (ctx : RuleContext) :
    ((executeActions actions env ctx).1 =
        ((actions.takeWhile fun a => (executeAction a env ctx).1.success).map
          fun a => (executeAction a env ctx).1)
        ++ (((actions.dropWhile fun a => (executeAction a env ctx).1.success).head?.map
          fun a => (executeAction a env ctx).1).toList))
  ∧ ((executeActions actions env ctx).2 =
        (((actions.takeWhile fun a => (executeAction a env ctx).1.success).map
          fun a => (executeAction a env ctx).2).flatten)
        ++ ((((actions.dropWhile fun a => (executeAction a env ctx).1.success).head?.map
          fun a => (executeAction a env ctx).2).toList).flatten))
  ∧ (∀ a ∈ actions.takeWhile fun a => (executeAction a env ctx).1.success,
        (executeAction a env ctx).1.success = true)
  ∧ (∀ b, (actions.dropWhile fun a => (executeAction a env ctx).1.success).head? = some b →
        (executeAction b env ctx).1.success = false) := by
  refine ⟨?_, ?_,
    fun a ha => mem_takeWhile_pred (fun a => (executeAction a env ctx).1.success) actions a ha,
    fun b hb => head_dropWhile_pred (fun a => (executeAction a env ctx).1.success) actions b hb⟩
  · induction actions with
    | nil => simp [executeActions]
    | cons a rest ih =>
      by_cases h : (executeAction a env ctx).1.success = true
      · simp [executeActions, h, List.takeWhile_cons, List.dropWhile_cons, ih]
      · simp [executeActions, h, List.takeWhile_cons, List.dropWhile_cons]
  · induction actions with
    | nil => simp [executeActions]
    | cons a rest ih =>
      by_cases h : (executeAction a env ctx).1.success = true
      · simp [executeActions, h, List.takeWhile_cons, List.dropWhile_cons, ih]
      · simp [executeActions, h, List.takeWhile_cons, List.dropWhile_cons]

/-- Collaborator oracle for witnesses: nothing supported, timer store
returns a fixed id. -/
def wEnv : Env :=
  { notificationSupported := false, notificationPermission := "default",
    requestPermissionResult := "default", notificationCtorError := none,
    startTimer := fun _ => .ok "t1" }

/-- Empty-payload context for witnesses. -/
def wCtx : RuleContext := { payload := [] }

/-- A succeeding action (LOG_MESSAGE always succeeds). -/
def wLog : RuleActionConfig := { type := "LOG_MESSAGE", params := [] }

/-- A failing action (START_TIMER without `activityId`). -/
def wFail : RuleActionConfig := { type := "START_TIMER", params := [] }

/-- A would-be third action after the failure. -/
def wBreak : RuleActionConfig := { type := "TRIGGER_BREAK", params := [] }

/-- Witness for C1 at `[success, failure, success]`: the action at the head
of the post-prefix remainder is the failing one. -/
theorem executeActions_failFast_witness :
    (executeAction wFail wEnv wCtx).1.success = false :=
  (executeActions_failFast [wLog, wFail, wBreak] wEnv wCtx).2.2.2 wFail rfl

/-- C2 (amended): for every rule, context and collaborator oracle,
`evaluateAndExecuteRule` returns `matched = false` with no action executed
(empty effect trace, no error) when the conditions do not all hold; when
they hold it returns `matched = true`, `actionsExecuted` true exactly when
every result of the (possibly truncated) `executeActions` output succeeded,
and, when some executed action failed, an `error` equal to the first
failing action's error message whenever that message is present and
non-empty (the source's truthiness guard drops an absent or empty
message). -/
theorem evaluateAndExecuteRule_spec (rule : Rule) (env : Env) (ctx : RuleContext) :
    (evaluateConditions rule.conditions ctx = false →
       (evaluateAndExecuteRule rule env ctx).1.matched = false
       ∧ (evaluateAndExecuteRule rule env ctx).1.actionsExecuted = false
       ∧ (evaluateAndExecuteRule rule env ctx).1.error = none
       ∧ (evaluateAndExecuteRule rule env ctx).2 = [])
  ∧ (evaluateConditions rule.conditions ctx = true →
       (evaluateAndExecuteRule rule env ctx).1.matched = true
       ∧ (evaluateAndExecuteRule rule env ctx).1.actionsExecuted
           = (executeActions rule.actions env ctx).1.all (fun r => r.success)
       ∧ (∀ fa, (executeActions rule.actions env ctx).1.all (fun r => r.success) = false →
            (executeActions rule.actions env ctx).1.find? (fun r => !r.success) = some fa →
            (evaluateAndExecuteRule rule env ctx).1.error
              = fa.error.bind (fun e => if e = "" then none else some e))) := by
  constructor
  · intro h
    simp [evaluateAndExecuteRule, h]
  · intro h
    refine ⟨?_, ?_, ?_⟩
    · by_cases hall : (executeActions rule.actions env ctx).1.all (fun r => r.success) = true
      · simp [evaluateAndExecuteRule, h, hall]
      · cases hfind : (executeActions rule.actions env ctx).1.find? (fun r => !r.success) with
        | none => simp [evaluateAndExecuteRule, h, hall, hfind]
        | some fa =>
          cases hferr : fa.error with
          | none => simp [evaluateAndExecuteRule, h, hall, hfind, hferr]
          | some e =>
            by_cases he : e = "" <;>
              simp [evaluateAndExecuteRule, h, hall, hfind, hferr, he]
    · by_cases hall : (executeActions rule.actions env ctx).1.all (fun r => r.success) = true
      · simp [evaluateAndExecuteRule, h, hall]
      · cases hfind : (executeActions rule.actions env ctx).1.find? (fun r => !r.success) with
        | none => simp [evaluateAndExecuteRule, h, hall, hfind, Bool.not_eq_true _ ▸ hall]
        | some fa =>
          cases hferr : fa.error with
          | none => simp [evaluateAndExecuteRule, h, hall, hfind, hferr]
          | some e =>
            by_cases he : e = "" <;>
              simp [evaluateAndExecuteRule, h, hall, hfind, hferr, he]
    · intro fa hall hfind
      cases hferr : fa.error with
      | none => simp [evaluateAndExecuteRule, h, hall, hfind, hferr]
      | some e =>
        by_cases he : e = "" <;>
          simp [evaluateAndExecuteRule, h, hall, hfind, hferr, he, Option.bind]

/-- Collaborator oracle whose timer store throws an empty string. -/
def cexEnv : Env :=
  { notificationSupported := false, notificationPermission := "default",
    requestPermissionResult := "default", notificationCtorError := none,
    startTimer := fun _ => .error "" }

/-- Rule with no conditions and one START_TIMER action, used against
`cexEnv` to exercise the empty-error-message path. -/
def cexRule : Rule :=
  { id := "r1", name := "r1", trigger := "TIMER_STARTED", conditions := [],
    actions := [{ type := "START_TIMER", params := [("activityId", .str "a")] }] }

/-- Counterexample to C2 as stated: the rule matches, its first (and only)
action fails with error message `""`, yet the returned `EvaluatedRule` has
no `error` set — the result's error field does not equal the first failing
action's error message. -/
theorem evaluateAndExecuteRule_error_cex :
    evaluateConditions cexRule.conditions wCtx = true
  ∧ ((executeActions cexRule.actions cexEnv wCtx).1.find? (fun r => !r.success)
      = some { actionType := "START_TIMER", success := false, error := some "" })
  ∧ (evaluateAndExecuteRule cexRule cexEnv wCtx).1.matched = true
  ∧ (evaluateAndExecuteRule cexRule cexEnv wCtx).1.actionsExecuted = false
  ∧ (evaluateAndExecuteRule cexRule cexEnv wCtx).1.error = none :=
  ⟨rfl, rfl, rfl, rfl, rfl⟩

/-- Witness for C2's amended theorem at the concrete failing rule: the
first failing action carries error message `""`, and the aggregation maps
it to an unset error field. -/
theorem evaluateAndExecuteRule_spec_witness :
    (evaluateAndExecuteRule cexRule cexEnv wCtx).1.error
      = (some "").bind (fun e => if e = "" then none else some e) :=
  ((evaluateAndExecuteRule_spec cexRule cexEnv wCtx).2 rfl).2.2
    { actionType := "START_TIMER", success := false, error := some "" } rfl rfl

/-- Rule used by the C3 witness. -/
def wRule3 : Rule :=
  { id := "r3", name := "n3", trigger := "POMODORO_COMPLETED", conditions := [],
    actions := [] }

/-- C3: for every event dispatched via `handleEvent` (and its
`handleEventGen` generalisation over an arbitrary, possibly-throwing
condition evaluator and action executor), every cached rule whose trigger
equals the event type yields exactly one `EvaluatedRule`, in cache order,
each depending only on its own rule — so an earlier rule's failure or
exception cannot suppress or alter a later rule's result; a throw while
evaluating a rule's conditions or executing its actions is caught at that
rule's boundary and recorded in that rule's `error` field, and
`handleEvent`/`handleEventGen`/`testRule` are total functions, so no
exception propagates to the caller. -/
theorem handleEvent_isolation
    (evalConds : List RuleCondition → RuleContext → Except String Bool)
    (execActs : List RuleActionConfig → RuleContext → Except String (List ActionResult))
    (env : Env) (state : EngineState) (eventType : String)
    (payload : List (String × JsonValue)) :
    (handleEvent env state eventType payload
       = (state.rulesCache.filter fun r => r.trigger == eventType).map
           (fun r => (evaluateAndExecuteRule r env (buildContext payload)).1))
  ∧ (handleEventGen evalConds execActs state eventType payload
       = (state.rulesCache.filter fun r => r.trigger == eventType).map
           (fun r => evaluateAndExecuteRuleGen evalConds execActs r (buildContext payload)))
  ∧ (∀ (rule : Rule) (ctx : RuleContext) (e : String),
       evalConds rule.conditions ctx = Except.error e →
       evaluateAndExecuteRuleGen evalConds execActs rule ctx =
         { ruleId := rule.id, ruleName := rule.name, trigger := rule.trigger,
           matched := false, actionsExecuted := false, error := some e })
  ∧ (∀ (rule : Rule) (ctx : RuleContext) (e : String),
       evalConds rule.conditions ctx = Except.ok true →
       execActs rule.actions ctx = Except.error e →
       evaluateAndExecuteRuleGen evalConds execActs rule ctx =
         { ruleId := rule.id, ruleName := rule.name, trigger := rule.trigger,
           matched := true, actionsExecuted := false, error := some e }) := by
  refine ⟨?_, ?_, ?_, ?_⟩
  · cases hf : state.rulesCache.filter fun r => r.trigger == eventType <;>
      simp [handleEvent, hf, List.isEmpty]
  · cases hf : state.rulesCache.filter fun r => r.trigger == eventType <;>
      simp [handleEventGen, hf, List.isEmpty]
  · intro rule ctx e hev
    simp [evaluateAndExecuteRuleGen, hev]
  · intro rule ctx e hev hex
    simp [evaluateAndExecuteRuleGen, hev, hex]

/-- Witness for C3 at a throwing condition evaluator: the throw is caught
and recorded on the one matching rule's result, and dispatch still returns
one result for that rule. -/
theorem handleEvent_isolation_witness :
    handleEventGen (fun _ _ => Except.error "boom") (fun _ _ => Except.ok [])
        { rulesCache := [wRule3] } "POMODORO_COMPLETED" []
      = [{ ruleId := "r3", ruleName := "n3", trigger := "POMODORO_COMPLETED",
           matched := false, actionsExecuted := false, error := some "boom" }] := by
  have h := handleEvent_isolation (fun _ _ => Except.error "boom")
    (fun _ _ => Except.ok []) wEnv { rulesCache := [wRule3] } "POMODORO_COMPLETED" []
  rw [h.2.1, show (({ rulesCache := [wRule3] } : EngineState).rulesCache.filter
    fun r => r.trigger == "POMODORO_COMPLETED") = [wRule3] from rfl, List.map_cons,
    h.2.2.1 wRule3 (buildContext []) "boom" rfl]
  rfl

/-- Is the value a JS number? -/
def isNumber : JsonValue → Bool
  | .num _ => true
  | _ => false

/-- Can the path walker step into the value (JS `typeof === 'object'`,
excluding the already-handled `null`)? -/
def isTraversable : JsonValue → Bool
  | .obj _ => true
  | .arr _ => true
  | _ => false

/-- C4: for every condition whose operator is one of `gt`, `gte`, `lt`,
`lte` and every context, `evaluateCondition` returns `false` whenever the
resolved field value or the `expectedValue` is not a number — no type
coercion; and `evaluateCondition` is a total function (it is a plain Lean
`def`, so it never throws on any condition/context input). -/
theorem evaluateCondition_numeric_guard (cond : RuleCondition) (ctx : RuleContext)
    (hop : cond.operator = "gt" ∨ cond.operator = "gte"
         ∨ cond.operator = "lt" ∨ cond.operator = "lte")
    (h : isNumber (getNestedValue (syntheticRoot ctx) cond.field) = false
       ∨ isNumber cond.value = false) :
    evaluateCondition cond ctx = false := by
  rcases hop with h1 | h1 | h1 | h1 <;>
    cases hAct : getNestedValue (syntheticRoot ctx) cond.field <;>
      cases hVal : cond.value <;>
        simp_all [evaluateCondition, isNumber]

/-- Condition used by the C4 witness: a numeric comparison against a
string expected value. -/
def wCond4 : RuleCondition := { field := "payload.x", operator := "gt", value := .str "a" }

/-- Witness for C4: `gt` against a non-numeric operand evaluates to false. -/
theorem evaluateCondition_numeric_guard_witness :
    evaluateCondition wCond4 wCtx = false :=
  evaluateCondition_numeric_guard wCond4 wCtx (Or.inl rfl) (Or.inr rfl)

/-- C5: a dotted path that reaches a null, missing (undefined) or
non-object intermediate value resolves to the absent value `undefined`
rather than an error (the walker is total and stops with `undefined`
whenever segments remain and the current value is not traversable), and a
condition over such a path with a concrete (non-absent) expected value
evaluates to `false` under `eq` and to `true` under `neq`. -/
theorem absent_path_semantics :
    (∀ (v : JsonValue) (p : String) (ps : List String),
        isTraversable v = false → getNestedValueParts (p :: ps) v = .undefined)
  ∧ (∀ (cond : RuleCondition) (ctx : RuleContext),
        getNestedValue (syntheticRoot ctx) cond.field = .undefined →
        cond.value ≠ .undefined →
        (cond.operator = "eq" → evaluateCondition cond ctx = false)
        ∧ (cond.operator = "neq" → evaluateCondition cond ctx = true)) := by
  constructor
  · intro v p ps hv
    cases v <;> simp_all [getNestedValueParts, isTraversable]
  · intro cond ctx habs hconc
    have hbeq : beqVal .undefined cond.value = false := by
      rw [← Bool.not_eq_true, beqVal_iff]
      exact fun hcc => hconc hcc.symm
    constructor <;> intro hop <;> simp [evaluateCondition, habs, hop, hbeq]

/-- Condition used by the C5 witness: `payload.a.b` where `payload.a` is a
number, so the walk hits a non-object intermediate. -/
def wCond5 : RuleCondition := { field := "payload.a.b", operator := "neq", value := .str "x" }

/-- Context used by the C5 witness. -/
def wCtx5 : RuleContext := { payload := [("a", .num 5)] }

/-- Witness for C5: `neq` against a concrete value on an absent path is
true. -/
theorem absent_path_semantics_witness :
    evaluateCondition wCond5 wCtx5 = true :=
  (absent_path_semantics.2 wCond5 wCtx5 rfl
    (fun hcc => JsonValue.noConfusion hcc)).2 rfl

/-- C6: for every condition with operator `contains`: if the resolved value
and the expected value are both strings, the condition holds iff the
expected value occurs as a (contiguous) substring of the resolved value;
if the resolved value is an array, it holds iff some element is
structurally equal to the expected value; every other combination of types
evaluates to `false`. -/
theorem contains_semantics (cond : RuleCondition) (ctx : RuleContext)
    (hop : cond.operator = "contains") :
    (∀ s t, getNestedValue (syntheticRoot ctx) cond.field = .str s → cond.value = .str t →
        (evaluateCondition cond ctx = true ↔ ∃ pre post, s.toList = pre ++ t.toList ++ post))
  ∧ (∀ xs, getNestedValue (syntheticRoot ctx) cond.field = .arr xs →
        (evaluateCondition cond ctx = true ↔ ∃ x ∈ xs, x = cond.value))
  ∧ (∀ s, getNestedValue (syntheticRoot ctx) cond.field = .str s →
        (∀ t, cond.value ≠ .str t) → evaluateCondition cond ctx = false)
  ∧ ((∀ s, getNestedValue (syntheticRoot ctx) cond.field ≠ .str s) →
     (∀ xs, getNestedValue (syntheticRoot ctx) cond.field ≠ .arr xs) →
        evaluateCondition cond ctx = false) := by
  refine ⟨?_, ?_, ?_, ?_⟩
  · intro s t hA hV
    simp [evaluateCondition, hop, hA, hV, strIncludes, hasSubstr_iff]
  · intro xs hA
    simp [evaluateCondition, hop, hA, List.any_eq_true, beqVal_iff]
  · intro s hA hV
    cases hval : cond.value <;> simp_all [evaluateCondition, hop]
  · intro h1 h2
    cases hA : getNestedValue (syntheticRoot ctx) cond.field <;>
      simp_all [evaluateCondition, hop]

/-- Condition used by the C6 witness: substring containment. -/
def wCond6 : RuleCondition := { field := "payload.msg", operator := "contains", value := .str "bc" }

/-- Context used by the C6 witness. -/
def wCtx6 : RuleContext := { payload := [("msg", .str "abc")] }

/-- Witness for C6: `"abc"` contains `"bc"`. -/
theorem contains_semantics_witness :
    evaluateCondition wCond6 wCtx6 = true :=
  ((contains_semantics wCond6 wCtx6 rfl).1 "abc" "bc" rfl rfl).mpr
    ⟨['a'], [], rfl⟩

/-- C7: for every context, `evaluateConditions` returns `true` on the empty
condition list, and on every list it returns `true` exactly when
`evaluateCondition` holds for every condition in it (conjunctive AND). -/
theorem evaluateConditions_conjunctive (ctx : RuleContext) :
    evaluateConditions [] ctx = true
  ∧ ∀ conditions : List RuleCondition,
      evaluateConditions conditions ctx
        = conditions.all (fun c => evaluateCondition c ctx) := by
  constructor
  · rfl
  · intro conds
    cases conds with
    | nil => rfl
    | cons c cs => simp [evaluateConditions]

/-- C8: for every START_TIMER action config whose params carry no
`activityId`, `executeAction` returns a failed result (as data, never
raised — the embedding is a total function) with error
`"activityId gerekli"`, and the external timer-start collaborator is never
invoked: the effect trace is empty. -/
theorem executeStartTimer_missing_id (params : List (String × JsonValue)) (env : Env)
    (ctx : RuleContext) (h : objLookup params "activityId" = .undefined) :
    executeAction { type := "START_TIMER", params := params } env ctx =
      ({ actionType := "START_TIMER", success := false,
         error := some "activityId gerekli", data := none }, []) := by
  simp [executeAction, executeStartTimer, h, truthy]

/-- Witness for C8 at empty params. -/
theorem executeStartTimer_missing_id_witness :
    executeAction { type := "START_TIMER", params := [] } wEnv wCtx =
      ({ actionType := "START_TIMER", success := false,
         error := some "activityId gerekli", data := none }, []) :=
  executeStartTimer_missing_id [] wEnv wCtx rfl

/-- Field `k` of an action result's output-data object (`undefined` when
the data is missing or not an object). -/
def reportedField (r : ActionResult) (k : String) : JsonValue :=
  match r.data with
  | some (.obj fields) => objLookup fields k
  | _ => .undefined

/-- TRIGGER_BREAK config with an explicit zero duration parameter. -/
def cexBreakZero : RuleActionConfig :=
  { type := "TRIGGER_BREAK", params := [("duration", JsonValue.num 0)] }

/-- TRIGGER_BREAK config with an explicit 600-second duration parameter. -/
def wBreak600 : RuleActionConfig :=
  { type := "TRIGGER_BREAK", params := [("duration", JsonValue.num 600)] }

/-- Counterexample to C9 as stated: the params give `duration := 0`, yet
the reported break duration is the 300-second default, not the given
parameter — the `||` default kicks in on every falsy value, not only on a
missing one. -/
theorem executeTriggerBreak_zero_duration_cex :
    reportedField (executeAction cexBreakZero wEnv wCtx).1 "duration" = JsonValue.num 300
  ∧ JsonValue.num 300 ≠ JsonValue.num 0 :=
  ⟨rfl, fun hcc => absurd (JsonValue.num.inj hcc) (by decide)⟩

/-- C9 (amended): for every TRIGGER_BREAK action config and context,
`executeAction` returns a successful result with no collaborator side
effect, whose output data reports a break duration equal to the `duration`
parameter when that parameter is a truthy value (e.g. a nonzero number)
and the 300-second default when it is absent or falsy (e.g. zero), and a
long-break flag equal to the `isLongBreak` parameter when it is a boolean
and `false` when it is absent. -/
theorem executeTriggerBreak_spec (params : List (String × JsonValue)) (env : Env)
    (ctx : RuleContext) :
    ((executeAction { type := "TRIGGER_BREAK", params := params } env ctx).1.success = true)
  ∧ ((executeAction { type := "TRIGGER_BREAK", params := params } env ctx).2 = [])
  ∧ (∀ d : Int, objLookup params "duration" = .num d → d ≠ 0 →
       reportedField (executeAction { type := "TRIGGER_BREAK", params := params } env ctx).1
         "duration" = .num d)
  ∧ ((objLookup params "duration" = .undefined ∨ objLookup params "duration" = .num 0) →
       reportedField (executeAction { type := "TRIGGER_BREAK", params := params } env ctx).1
         "duration" = .num 300)
  ∧ (∀ b : Bool, objLookup params "isLongBreak" = .bool b →
       reportedField (executeAction { type := "TRIGGER_BREAK", params := params } env ctx).1
         "isLongBreak" = .bool b)
  ∧ (objLookup params "isLongBreak" = .undefined →
       reportedField (executeAction { type := "TRIGGER_BREAK", params := params } env ctx).1
         "isLongBreak" = .bool false) := by
  refine ⟨?_, ?_, ?_, ?_, ?_, ?_⟩
  · simp [executeAction, executeTriggerBreak]
  · simp [executeAction, executeTriggerBreak]
  · intro d hd hd0
    simp only [executeAction, executeTriggerBreak, reportedField, hd, truthy]
    simp [objLookup, hd0]
  · rintro (hd | hd) <;>
      (simp only [executeAction, executeTriggerBreak, reportedField, hd, truthy]
       simp [objLookup])
  · intro b hb
    cases b <;>
      (simp only [executeAction, executeTriggerBreak, reportedField, hb, truthy]
       simp [objLookup])
  · intro hb
    simp only [executeAction, executeTriggerBreak, reportedField, hb, truthy]
    simp [objLookup]

/-- Witness for C9's amended theorem: a 600-second duration parameter is
reported back unchanged. -/
theorem executeTriggerBreak_spec_witness :
    reportedField (executeAction wBreak600 wEnv wCtx).1 "duration" = JsonValue.num 600 :=
  (executeTriggerBreak_spec [("duration", JsonValue.num 600)] wEnv wCtx).2.2.1
    600 rfl (by decide)

/-- C10 (implicit): for every rule whose conditions hold and whose actions
list is empty, `evaluateAndExecuteRule` (and hence `testRule`) returns
`matched = true`, `actionsExecuted = true` and no error, with no
collaborator effect: `executeActions` on `[]` returns `[]` and the
all-succeeded aggregation over `[]` is vacuously true. -/
theorem emptyActions_vacuous (rule : Rule) (env : Env) (ctx : RuleContext)
    (hA : rule.actions = []) (hC : evaluateConditions rule.conditions ctx = true) :
    (evaluateAndExecuteRule rule env ctx).1.matched = true
  ∧ (evaluateAndExecuteRule rule env ctx).1.actionsExecuted = true
  ∧ (evaluateAndExecuteRule rule env ctx).1.error = none
  ∧ (evaluateAndExecuteRule rule env ctx).2 = []
  ∧ (∀ payload, evaluateConditions rule.conditions (buildContext payload) = true →
       (testRule rule env payload).1.matched = true
       ∧ (testRule rule env payload).1.actionsExecuted = true
       ∧ (testRule rule env payload).1.error = none) := by
  refine ⟨?_, ?_, ?_, ?_, ?_⟩
  · simp [evaluateAndExecuteRule, hA, hC, executeActions]
  · simp [evaluateAndExecuteRule, hA, hC, executeActions]
  · simp [evaluateAndExecuteRule, hA, hC, executeActions]
  · simp [evaluateAndExecuteRule, hA, hC, executeActions]
  · intro payload hC'
    refine ⟨?_, ?_, ?_⟩ <;>
      simp [testRule, evaluateAndExecuteRule, hA, hC', executeActions]

/-- Rule used by the C10 witness: no conditions, no actions. -/
def wRule10 : Rule :=
  { id := "r10", name := "n10", trigger := "DAY_ROLLOVER", conditions := [], actions := [] }

/-- Witness for C10. -/
theorem emptyActions_vacuous_witness :
    (evaluateAndExecuteRule wRule10 wEnv wCtx).1.actionsExecuted = true :=
  (emptyActions_vacuous wRule10 wEnv wCtx rfl rfl).2.1

end LifeFlow
